import Mathlib

/-!
Verification development for the CiviStories i18n subsystem (src/config.js,
class I18n). The definitions below are a shallow embedding of that class:

* JSON documents (the parsed result of response.json()) are the inductive
  type Json. Object values are represented as association lists with
  distinct keys, matching the output of JSON.parse, where duplicate keys
  collapse. Plain property access (jsProp, used with the fixed key names
  meta, dir and lang, none of which is a prototype member) reads own
  properties; the in-operator guard of I18n.t additionally sees the
  prototype chain, which tCanDescend and jsGetIn model over JsValue:
  Object.prototype and Array.prototype members per ECMAScript, with
  built-in functions terminal for the traversal since typeof rejects
  them.
* The mutable fields of the I18n instance (currentLang, translations,
  languages, defaultLang) become the record I18nState, together with the
  content of the localStorage slot (savedPref) and the list of
  languageChanged events dispatched so far (events).
* The outside world (fetch results for the languages manifest and for the
  per-language bundles, navigator.language, localStorage availability) is
  the record Env. A fetch that rejects, returns a non-ok response, or whose
  body fails JSON parsing is modelled as the corresponding Env field being
  none.
* JavaScript exceptions are modelled with Except String: applyLanguage can
  throw (property access on undefined or null meta) and setLanguage catches
  that, exactly as the try/catch in the source.
-/

namespace CiviStories

/-- A parsed JSON document, as produced by response.json(). -/
inductive Json where
  | null : Json
  | bool : Bool → Json
  | num : Int → Json
  | str : String → Json
  | arr : List Json → Json
  | obj : List (String × Json) → Json

/-- Own-property lookup in a parsed JSON object (keys are distinct after
JSON.parse, so first match is the match). -/
def objLookup : List (String × Json) → String → Option Json
  | [], _ => none
  | (k', v) :: rest, k => if k' == k then some v else objLookup rest k

/-- The canonical array index denoted by the string k, when it is one and
is within bounds, mirroring which index strings satisfy the in operator on
a JavaScript array. -/
def arrIndexKey (len : Nat) (k : String) : Option Nat :=
  match k.toNat? with
  | some n => if Nat.repr n == k && decide (n < len) then some n else none
  | none => none

/-- Own-property membership of k in a parsed JSON value: the object keys,
or for an array its canonical in-bounds indices and length. This is the
part of the in operator that does not consult the prototype chain. -/
def jsOwnKey : Json → String → Bool
  | Json.obj kvs, k => (objLookup kvs k).isSome
  | Json.arr xs, k => k == "length" || (arrIndexKey xs.length k).isSome
  | _, _ => false

/-- The member access value[k] for an own property of an object or array,
meaningful when jsOwnKey holds; Json.null elsewhere. -/
def jsOwnIndex : Json → String → Json
  | Json.obj kvs, k => (objLookup kvs k).getD Json.null
  | Json.arr xs, k =>
      if k == "length" then Json.num (Int.ofNat xs.length)
      else
        match arrIndexKey xs.length k with
        | some n => xs.getD n Json.null
        | none => Json.null
  | _, _ => Json.null

/-- Own properties of a primitive string value (length and index access);
other keys read undefined. -/
def strProp (s : String) (k : String) : Option Json :=
  if k == "length" then some (Json.num (Int.ofNat s.length))
  else
    match arrIndexKey s.length k with
    | some n => some (Json.str (String.mk [s.data.getD n ' ']))
    | none => none

/-- Plain property access v.k in JavaScript: throws TypeError on null,
reads undefined (none) for an absent property or on a non-string
primitive. Own properties only: the program applies this solely to the
key names meta, dir, lang, languages and defaultLang, none of which is a
member of any prototype, so the prototype chain cannot change these
reads. -/
def jsProp : Json → String → Except String (Option Json)
  | Json.null, _ => Except.error "TypeError: cannot read properties of null"
  | Json.obj kvs, k => Except.ok (objLookup kvs k)
  | Json.arr xs, k =>
      Except.ok (if jsOwnKey (Json.arr xs) k then some (jsOwnIndex (Json.arr xs) k) else none)
  | Json.str s, k => Except.ok (strProp s k)
  | _, _ => Except.ok none

/-- Property access on a value known not to be null: undefined becomes
none. -/
def jsPropOr (v : Json) (k : String) : Option Json :=
  match jsProp v k with
  | Except.ok r => r
  | Except.error _ => none

/-- JavaScript truthiness of a parsed JSON value. -/
def jsTruthy : Json → Bool
  | Json.null => false
  | Json.bool b => b
  | Json.num n => n != 0
  | Json.str s => s != ""
  | Json.arr _ => true
  | Json.obj _ => true

/-- Strict equality of a JSON value with a string literal (v === s). -/
def jsStrictEqStr : Json → String → Bool
  | Json.str t, s => t == s
  | _, _ => false

/-- The expression a || b on two possibly-undefined strings: an undefined
or empty first operand yields the second operand unchanged. -/
def jsOrOpt (a b : Option String) : Option String :=
  match a with
  | some s => if s == "" then b else some s
  | none => b

/-- The expression a || d with a string default. -/
def jsOrStr (a : Option String) (d : String) : String :=
  match a with
  | some s => if s == "" then d else s
  | none => d

/-- Splitting a character list at every occurrence of a separator
character, keeping empty groups, structurally recursive so that it
evaluates. -/
def splitOnChar (sep : Char) : List Char → List (List Char)
  | [] => [[]]
  | c :: cs =>
      match splitOnChar sep cs with
      | [] => if c == sep then [[], []] else [[c]]
      | g :: gs => if c == sep then [] :: g :: gs else (c :: g) :: gs

/-- The JavaScript call s.split(sep) for a one-character separator, the
only form the source uses (split('.') and split('-')): an empty input
yields one empty group, and empty groups between separators are kept. -/
def jsSplit (s : String) (sep : Char) : List String :=
  (splitOnChar sep s.data).map String.mk

/-- The own string-keyed property names of Object.prototype (ECMAScript,
with the Annex B accessor present in every browser engine): the in
operator finds these on every plain object. -/
def objectProtoKeys : List String :=
  ["constructor", "hasOwnProperty", "isPrototypeOf", "propertyIsEnumerable",
   "toLocaleString", "toString", "valueOf", "__defineGetter__", "__defineSetter__",
   "__lookupGetter__", "__lookupSetter__", "__proto__"]

/-- The own string-keyed method names of Array.prototype (ECMAScript
2023): the in operator finds these, and length and constructor, on every
array. -/
def arrayProtoMethodKeys : List String :=
  ["at", "concat", "copyWithin", "entries", "every", "fill", "filter", "find",
   "findIndex", "findLast", "findLastIndex", "flat", "flatMap", "forEach",
   "includes", "indexOf", "join", "keys", "lastIndexOf", "map", "pop", "push",
   "reduce", "reduceRight", "reverse", "shift", "slice", "some", "sort",
   "splice", "toLocaleString", "toReversed", "toSorted", "toSpliced",
   "toString", "unshift", "values", "with"]

/-- The own string-keyed property names of Array.prototype. -/
def arrayProtoKeys : List String :=
  "length" :: "constructor" :: arrayProtoMethodKeys

/-- Whether k names a member of Object.prototype or Array.prototype, the
keys on which the in operator of I18n.t sees inherited properties. -/
def protoPropName (k : String) : Bool :=
  objectProtoKeys.contains k || arrayProtoKeys.contains k

/-- A value the traversal loop of I18n.t can hold: a JSON data value, or a
host value reached through the prototype chain: a built-in function
(named, e.g. Object.prototype.toString), Object.prototype itself, or
Array.prototype itself. The loop guard typeof value === 'object' rejects
functions, so built-ins are terminal; the only host objects reachable
from parsed JSON data are the two prototypes, via __proto__. -/
inductive JsValue where
  | data : Json → JsValue
  | hostFun : String → JsValue
  | objectProto : JsValue
  | arrayProto : JsValue

/-- The guard value and typeof value === 'object' and k in value from
I18n.t. Primitives are falsy or fail the typeof test; objects and arrays
(always truthy) answer the in operator with their own properties and
their prototype chain (Object.prototype for objects; Array.prototype then
Object.prototype for arrays); built-in functions fail the typeof test;
Object.prototype has a null prototype, Array.prototype inherits from
Object.prototype. -/
def tCanDescend : JsValue → String → Bool
  | JsValue.data (Json.obj kvs), k =>
      jsOwnKey (Json.obj kvs) k || objectProtoKeys.contains k
  | JsValue.data (Json.arr xs), k =>
      jsOwnKey (Json.arr xs) k || arrayProtoKeys.contains k || objectProtoKeys.contains k
  | JsValue.data _, _ => false
  | JsValue.hostFun _, _ => false
  | JsValue.objectProto, k => objectProtoKeys.contains k
  | JsValue.arrayProto, k => arrayProtoKeys.contains k || objectProtoKeys.contains k

/-- The member access value[k] inside the loop of I18n.t, meaningful when
tCanDescend holds: an own property shadows the chain; otherwise the
inherited member is produced, with __proto__ yielding the receiver's
prototype (and null on Object.prototype itself) and constructor yielding
the Object or Array constructor function. -/
def jsGetIn : JsValue → String → JsValue
  | JsValue.data (Json.obj kvs), k =>
      if jsOwnKey (Json.obj kvs) k then JsValue.data (jsOwnIndex (Json.obj kvs) k)
      else if k == "__proto__" then JsValue.objectProto
      else if k == "constructor" then JsValue.hostFun "Object"
      else JsValue.hostFun ("Object.prototype." ++ k)
  | JsValue.data (Json.arr xs), k =>
      if jsOwnKey (Json.arr xs) k then JsValue.data (jsOwnIndex (Json.arr xs) k)
      else if k == "constructor" then JsValue.hostFun "Array"
      else if arrayProtoMethodKeys.contains k then JsValue.hostFun ("Array.prototype." ++ k)
      else if k == "__proto__" then JsValue.arrayProto
      else JsValue.hostFun ("Object.prototype." ++ k)
  | JsValue.objectProto, k =>
      if k == "__proto__" then JsValue.data Json.null
      else if k == "constructor" then JsValue.hostFun "Object"
      else JsValue.hostFun ("Object.prototype." ++ k)
  | JsValue.arrayProto, k =>
      if k == "length" then JsValue.data (Json.num 0)
      else if k == "constructor" then JsValue.hostFun "Array"
      else if arrayProtoMethodKeys.contains k then JsValue.hostFun ("Array.prototype." ++ k)
      else if k == "__proto__" then JsValue.objectProto
      else JsValue.hostFun ("Object.prototype." ++ k)
  | _, _ => JsValue.data Json.null

/-- One entry of the language registry, as in locales/languages.json and in
the hardcoded fallback list of I18n.loadLanguages. -/
structure LanguageDescriptor where
  code : String
  name : String
  flag : String
  dir : String
deriving DecidableEq

/-- The parsed languages manifest, per the shape the code reads from it
(data.languages and data.defaultLang, the latter possibly absent). -/
structure Manifest where
  languages : List LanguageDescriptor
  defaultLang : Option String

/-- The outside world as the I18n class observes it. A failed fetch, a
non-ok response, or a body that is not valid JSON is none. -/
structure Env where
  manifest : Option Manifest
  bundles : String → Option Json
  navLanguage : Option String
  navUserLanguage : Option String
  storageAvailable : Bool

/-- The observable state of the I18n instance: its four data fields, the
persisted preference slot, and the languageChanged events dispatched so
far (payload detail is the pair of this.currentLang and meta.dir, either
component possibly undefined). -/
structure I18nState where
  currentLang : Option String
  translations : Json
  languages : List LanguageDescriptor
  defaultLang : String
  savedPref : Option String
  events : List (Option String × Option Json)

/-- The constructor state of the I18n class, over a pre-existing
localStorage content. -/
def initialState (pref : Option String) : I18nState :=
  { currentLang := none
    translations := Json.obj []
    languages := []
    defaultLang := "ar"
    savedPref := pref
    events := [] }

/-- localStorage.getItem, which throws when storage is unavailable. -/
def rawGetItem (avail : Bool) (stored : Option String) : Except String (Option String) :=
  if avail then Except.ok stored else Except.error "SecurityError: localStorage unavailable"

/-- I18n.getSavedLanguage: the getItem call wrapped in try/catch, degrading
to no preference. -/
def getSavedLanguage (avail : Bool) (stored : Option String) : Option String :=
  match rawGetItem avail stored with
  | Except.ok v => v
  | Except.error _ => none

/-- localStorage.setItem, which throws when storage is unavailable. -/
def rawSetItem (avail : Bool) (code : String) : Except String (Option String) :=
  if avail then Except.ok (some code) else Except.error "SecurityError: localStorage unavailable"

/-- I18n.saveLanguage: the setItem call wrapped in try/catch, leaving the
stored value unchanged on failure. -/
def saveLanguage (avail : Bool) (stored : Option String) (code : String) : Option String :=
  match rawSetItem avail code with
  | Except.ok v => v
  | Except.error _ => stored

/-- The hardcoded fallback list in the catch branch of
I18n.loadLanguages. -/
def fallbackLanguages : List LanguageDescriptor :=
  [ { code := "ar", name := "العربية", flag := "https://flagcdn.com/w80/eg.png", dir := "rtl" },
    { code := "en", name := "English", flag := "https://flagcdn.com/w80/gb.png", dir := "ltr" } ]

/-- I18n.loadLanguages: on a successful manifest fetch, take data.languages
and data.defaultLang with an 'ar' default; on any failure, install the
fallback list (the catch branch does not touch defaultLang). -/
def loadLanguages (env : Env) (st : I18nState) : I18nState :=
  match env.manifest with
  | some d => { st with languages := d.languages, defaultLang := jsOrStr d.defaultLang "ar" }
  | none => { st with languages := fallbackLanguages }

/-- I18n.getBrowserLanguage: navigator.language || navigator.userLanguage,
null for a missing or empty value, else the part before the first dash,
accepted only when some registry descriptor carries it as code. -/
def getBrowserLanguage (env : Env) (st : I18nState) : Option String :=
  match jsOrOpt env.navLanguage env.navUserLanguage with
  | none => none
  | some b =>
      if b == "" then none
      else
        let langCode := (jsSplit b '-').headD ""
        if st.languages.any (fun l => l.code == langCode) then some langCode else none

/-- The read this.translations.meta followed by the accesses meta.lang and
meta.dir in I18n.applyLanguage: throws when this.translations is null and
when meta is undefined or null. -/
def metaLookup (b : Json) : Except String Json :=
  match jsProp b "meta" with
  | Except.error e => Except.error e
  | Except.ok none => Except.error "TypeError: cannot read properties of undefined"
  | Except.ok (some Json.null) => Except.error "TypeError: cannot read properties of null"
  | Except.ok (some m) => Except.ok m

/-- The meta.dir payload of the languageChanged event a bundle would carry,
undefined (none) when meta or dir is missing or erroneous. -/
def langDir (b : Json) : Option Json :=
  match metaLookup b with
  | Except.ok m => jsPropOr m "dir"
  | Except.error _ => none

/-- I18n.applyLanguage: reads this.translations.meta (throwing on
undefined or null meta, exactly where meta.lang is dereferenced), performs
the DOM updates (document attributes, translatePage,
updateLanguageSwitcher: pure rendering, no I18n state change), then
dispatches one languageChanged event with detail lang = this.currentLang
and dir = meta.dir. -/
def applyLanguage (st : I18nState) : Except String I18nState :=
  match metaLookup st.translations with
  | Except.error e => Except.error e
  | Except.ok m =>
      Except.ok { st with events := st.events ++ [(st.currentLang, jsPropOr m "dir")] }

/-- The try block of I18n.setLanguage for one language code, together with
its catch as a Bool result: fetch the bundle (none covers a rejected
fetch, a non-ok response and an unparseable body, all reaching the catch
with the state untouched); on success assign this.translations and
this.currentLang, then applyLanguage (whose throw reaches the catch with
the two assignments already performed), then saveLanguage and return
true. -/
def setLanguageAttempt (env : Env) (st : I18nState) (code : String) : I18nState × Bool :=
  match env.bundles code with
  | none => (st, false)
  | some b =>
      let st1 := { st with translations := b, currentLang := some code }
      match applyLanguage st1 with
      | Except.error _ => (st1, false)
      | Except.ok st2 =>
          ({ st2 with savedPref := saveLanguage env.storageAvailable st2.savedPref code }, true)

/-- I18n.setLanguage: one attempt; on failure, when the requested code is
not this.defaultLang, one recursive call with this.defaultLang. The
recursive call receives the default code, so its own catch cannot recurse
further: it is exactly one more attempt, which the second branch inlines. -/
def setLanguage (env : Env) (st : I18nState) (code : String) : I18nState × Bool :=
  match setLanguageAttempt env st code with
  | (st1, true) => (st1, true)
  | (st1, false) =>
      if code == st1.defaultLang then (st1, false)
      else setLanguageAttempt env st1 st1.defaultLang

/-- I18n.init: load the registry, resolve the initial language as
savedLang || browserLang || this.defaultLang, and set it. No operation of
the embedding throws (loadLanguages, getSavedLanguage and setLanguage each
contain their own catch), so the surrounding try/catch of init is
unreachable and the body is this straight line. -/
def init (env : Env) (st : I18nState) : I18nState :=
  let st1 := loadLanguages env st
  let saved := getSavedLanguage env.storageAvailable st1.savedPref
  let browser := getBrowserLanguage env st1
  let initialLang := jsOrStr (jsOrOpt saved browser) st1.defaultLang
  (setLanguage env st1 initialLang).1

/-- One step of the loop of I18n.t over the split key: descend while the
in-operator guard holds (own properties or the prototype chain), else
return the key itself. -/
def tGo : JsValue → List String → String → JsValue
  | value, [], _ => value
  | value, k :: ks, key =>
      if tCanDescend value k then tGo (jsGetIn value k) ks key else JsValue.data (Json.str key)

/-- I18n.t: dot-path traversal over the active bundle, returning the key
itself when the in operator rejects a segment. -/
def I18nState.t (st : I18nState) (key : String) : JsValue :=
  tGo (JsValue.data st.translations) (jsSplit key '.') key

/-- I18n.get, the alias for t. -/
def I18nState.get (st : I18nState) (key : String) : JsValue :=
  st.t key

/-- I18n.getCurrentLang. -/
def getCurrentLang (st : I18nState) : Option String :=
  st.currentLang

/-- The optional chain this.translations.meta?.dir: the ?. turns a null or
undefined meta into undefined, while a null this.translations still
throws. -/
def metaDirChain (mo : Option Json) : Option Json :=
  match mo with
  | none => none
  | some Json.null => none
  | some m => jsPropOr m "dir"

/-- I18n.getDirection: this.translations.meta?.dir || 'ltr'. -/
def getDirection (st : I18nState) : Except String Json :=
  match jsProp st.translations "meta" with
  | Except.error e => Except.error e
  | Except.ok mo =>
      Except.ok
        (match metaDirChain mo with
         | none => Json.str "ltr"
         | some d => if jsTruthy d then d else Json.str "ltr")

/-- I18n.isRTL: this.getDirection() === 'rtl'. -/
def isRTL (st : I18nState) : Except String Bool :=
  match getDirection st with
  | Except.ok d => Except.ok (jsStrictEqStr d "rtl")
  | Except.error e => Except.error e

/-- Reaches v ks u states that u is the value reached from the JSON
document v by traversing the nested mapping along the path ks, descending
at each step through a member the document itself carries (an own
property). -/
inductive Reaches : Json → List String → Json → Prop where
  | nil (v : Json) : Reaches v [] v
  | cons {v w u : Json} {k : String} {ks : List String} :
      jsOwnKey v k = true → jsOwnIndex v k = w → Reaches w ks u → Reaches v (k :: ks) u

/-- A sample state whose bundle is the one in the spec scenario, with the
nested object a.b.c holding the string X. -/
def sampleLookupState : I18nState :=
  { initialState none with
      translations :=
        Json.obj [("a", Json.obj [("b", Json.obj [("c", Json.str "X")])])] }

/-- A well-formed Arabic bundle whose meta declares rtl. -/
def arBundle : Json :=
  Json.obj [("meta", Json.obj [("lang", Json.str "ar"), ("dir", Json.str "rtl")]),
            ("welcome", Json.str "aha")]

/-- A well-formed English bundle whose meta declares ltr. -/
def enBundle : Json :=
  Json.obj [("meta", Json.obj [("lang", Json.str "en"), ("dir", Json.str "ltr")]),
            ("welcome", Json.str "Hello")]

/-- A well-formed French bundle whose meta declares ltr. -/
def frBundle : Json :=
  Json.obj [("meta", Json.obj [("lang", Json.str "fr"), ("dir", Json.str "ltr")])]

/-- A bundle that parses as JSON but carries no meta entry, so applying it
throws after the assignments to translations and currentLang. -/
def noMetaBundle : Json :=
  Json.obj [("title", Json.str "broken")]

/-- A registry descriptor for French, with direction ltr. -/
def frDescriptor : LanguageDescriptor :=
  { code := "fr", name := "Francais", flag := "https://flagcdn.com/w80/fr.png", dir := "ltr" }

/-- A world where the manifest is unreachable, the Arabic and English
bundles load, every other bundle fails, and storage works. -/
def demoEnv : Env :=
  { manifest := none
    bundles := fun c =>
      if c == "en" then some enBundle else if c == "ar" then some arBundle else none
    navLanguage := none
    navUserLanguage := none
    storageAvailable := true }

/-- A state after a successful startup on the fallback registry with the
Arabic bundle active. -/
def demoReadySt : I18nState :=
  { currentLang := some "ar"
    translations := arBundle
    languages := fallbackLanguages
    defaultLang := "ar"
    savedPref := some "ar"
    events := [] }

/-- The ready state with a stale French preference persisted. -/
def demoFrPrefSt : I18nState :=
  { demoReadySt with savedPref := some "fr" }

/-- A ready state with English active. -/
def demoEnSt : I18nState :=
  { demoReadySt with
      currentLang := some "en"
      translations := enBundle
      savedPref := some "en" }

/-- The ready state with English active and French listed in the registry
with direction ltr. -/
def mixedRegistrySt : I18nState :=
  { demoReadySt with
      currentLang := some "en"
      translations := enBundle
      languages := fallbackLanguages ++ [frDescriptor]
      savedPref := some "en" }

/-- A world where every network fetch fails. -/
def outageEnv : Env :=
  { manifest := none
    bundles := fun _ => none
    navLanguage := none
    navUserLanguage := none
    storageAvailable := true }

/-- A world where the default-language bundle arrives as valid JSON that
lacks the meta entry. -/
def noMetaEnv : Env :=
  { manifest := none
    bundles := fun c => if c == "ar" then some noMetaBundle else none
    navLanguage := none
    navUserLanguage := none
    storageAvailable := true }

/-- A world where the manifest is unreachable but a French bundle exists,
although French is not in the fallback registry. -/
def strayBundleEnv : Env :=
  { manifest := none
    bundles := fun c => if c == "fr" then some frBundle else none
    navLanguage := none
    navUserLanguage := none
    storageAvailable := true }

/-! Characterization lemmas for the three ways one setLanguage attempt can
go: the fetch fails and the state is untouched; the bundle arrives but
applying it throws, with the two assignments already performed; or
everything succeeds. -/

theorem setLanguageAttempt_cases (env : Env) (st : I18nState) (c : String) :
    (env.bundles c = none ∧ setLanguageAttempt env st c = (st, false))
    ∨ (∃ b e, env.bundles c = some b ∧ metaLookup b = Except.error e ∧
        setLanguageAttempt env st c =
          ({ st with translations := b, currentLang := some c }, false))
    ∨ (∃ b m, env.bundles c = some b ∧ metaLookup b = Except.ok m ∧
        setLanguageAttempt env st c =
          ({ st with
              translations := b
              currentLang := some c
              events := st.events ++ [(some c, jsPropOr m "dir")]
              savedPref := saveLanguage env.storageAvailable st.savedPref c }, true)) := by
  cases hb : env.bundles c with
  | none =>
      exact Or.inl ⟨rfl, by simp [setLanguageAttempt, hb]⟩
  | some b =>
      cases hm : metaLookup b with
      | error e =>
          refine Or.inr (Or.inl ⟨b, e, by simp [hb], by simp [hm], ?_⟩)
          simp [setLanguageAttempt, hb, applyLanguage, hm]
      | ok m =>
          refine Or.inr (Or.inr ⟨b, m, by simp [hb], by simp [hm], ?_⟩)
          simp [setLanguageAttempt, hb, applyLanguage, hm]

theorem setLanguageAttempt_defaultLang (env : Env) (st : I18nState) (c : String) :
    (setLanguageAttempt env st c).1.defaultLang = st.defaultLang := by
  rcases setLanguageAttempt_cases env st c with ⟨_, h⟩ | ⟨b, e, _, _, h⟩ | ⟨b, m, _, _, h⟩ <;>
    rw [h]

theorem setLanguageAttempt_languages (env : Env) (st : I18nState) (c : String) :
    (setLanguageAttempt env st c).1.languages = st.languages := by
  rcases setLanguageAttempt_cases env st c with ⟨_, h⟩ | ⟨b, e, _, _, h⟩ | ⟨b, m, _, _, h⟩ <;>
    rw [h]

theorem setLanguageAttempt_currentLang_cases (env : Env) (st : I18nState) (c : String) :
    (setLanguageAttempt env st c).1.currentLang = st.currentLang
    ∨ ((∃ b, env.bundles c = some b) ∧
        (setLanguageAttempt env st c).1.currentLang = some c) := by
  rcases setLanguageAttempt_cases env st c with ⟨_, h⟩ | ⟨b, e, hb, _, h⟩ | ⟨b, m, hb, _, h⟩
  · exact Or.inl (by rw [h])
  · exact Or.inr ⟨⟨b, hb⟩, by rw [h]⟩
  · exact Or.inr ⟨⟨b, hb⟩, by rw [h]⟩

theorem setLanguageAttempt_success (env : Env) (st : I18nState) (c : String)
    (h : (setLanguageAttempt env st c).2 = true) :
    ∃ b m, env.bundles c = some b ∧ metaLookup b = Except.ok m ∧
      setLanguageAttempt env st c =
        ({ st with
            translations := b
            currentLang := some c
            events := st.events ++ [(some c, jsPropOr m "dir")]
            savedPref := saveLanguage env.storageAvailable st.savedPref c }, true) := by
  rcases setLanguageAttempt_cases env st c with ⟨_, hr⟩ | ⟨b, e, _, _, hr⟩ | ⟨b, m, hb, hm, hr⟩
  · rw [hr] at h; exact absurd h (by simp)
  · rw [hr] at h; exact absurd h (by simp)
  · exact ⟨b, m, hb, hm, hr⟩

/-! Unfolding lemmas for setLanguage in terms of its attempts. -/

theorem setLanguage_of_attempt_true (env : Env) (st : I18nState) (c : String)
    (st1 : I18nState) (h : setLanguageAttempt env st c = (st1, true)) :
    setLanguage env st c = (st1, true) := by
  unfold setLanguage
  rw [h]

theorem setLanguage_of_attempt_false_default (env : Env) (st : I18nState) (c : String)
    (st1 : I18nState) (h : setLanguageAttempt env st c = (st1, false))
    (hc : c = st1.defaultLang) :
    setLanguage env st c = (st1, false) := by
  unfold setLanguage
  rw [h]
  simp [hc]

theorem setLanguage_of_attempt_false_other (env : Env) (st : I18nState) (c : String)
    (st1 : I18nState) (h : setLanguageAttempt env st c = (st1, false))
    (hc : c ≠ st1.defaultLang) :
    setLanguage env st c = setLanguageAttempt env st1 st1.defaultLang := by
  unfold setLanguage
  rw [h]
  simp [hc]

theorem langDir_of_metaLookup (b m : Json) (h : metaLookup b = Except.ok m) :
    langDir b = jsPropOr m "dir" := by
  simp [langDir, h]

theorem metaLookup_ok_elim (b m : Json) (h : metaLookup b = Except.ok m) :
    jsProp b "meta" = Except.ok (some m) ∧ m ≠ Json.null := by
  unfold metaLookup at h
  cases hj : jsProp b "meta" with
  | error e => rw [hj] at h; exact absurd h (by simp)
  | ok mo =>
      rw [hj] at h
      cases mo with
      | none => exact absurd h (by simp)
      | some m' =>
          cases m' with
          | null => exact absurd h (by simp)
          | bool x =>
              have hx : Json.bool x = m := by simpa using h
              subst hx; exact ⟨rfl, by simp⟩
          | num x =>
              have hx : Json.num x = m := by simpa using h
              subst hx; exact ⟨rfl, by simp⟩
          | str x =>
              have hx : Json.str x = m := by simpa using h
              subst hx; exact ⟨rfl, by simp⟩
          | arr x =>
              have hx : Json.arr x = m := by simpa using h
              subst hx; exact ⟨rfl, by simp⟩
          | obj x =>
              have hx : Json.obj x = m := by simpa using h
              subst hx; exact ⟨rfl, by simp⟩

theorem isRTL_of_meta_dir (s : I18nState) (m : Json) (dd : String)
    (hb : jsProp s.translations "meta" = Except.ok (some m))
    (hd : jsPropOr m "dir" = some (Json.str dd)) :
    isRTL s = Except.ok (dd == "rtl") := by
  have hchain : metaDirChain (some m) = jsPropOr m "dir" := by
    cases m <;> rfl
  unfold isRTL getDirection
  rw [hb]
  simp only [hchain, hd]
  by_cases hdd : dd = ""
  · subst hdd; simp [jsTruthy, jsStrictEqStr]
  · simp [jsTruthy, jsStrictEqStr, hdd]

theorem setLanguageAttempt_failed_fields (env : Env) (st : I18nState) (c : String)
    (h : (setLanguageAttempt env st c).2 = false) :
    (setLanguageAttempt env st c).1.events = st.events
    ∧ (setLanguageAttempt env st c).1.savedPref = st.savedPref := by
  rcases setLanguageAttempt_cases env st c with ⟨_, hr⟩ | ⟨b, e, _, _, hr⟩ | ⟨b, m, _, _, hr⟩
  · rw [hr]; exact ⟨rfl, rfl⟩
  · rw [hr]; exact ⟨rfl, rfl⟩
  · rw [hr] at h; exact absurd h (by simp)

theorem setLanguage_languages (env : Env) (st : I18nState) (c : String) :
    (setLanguage env st c).1.languages = st.languages := by
  have h1 := setLanguageAttempt_languages env st c
  cases hA : setLanguageAttempt env st c with
  | mk st1 flag =>
      rw [hA] at h1
      cases flag with
      | true => rw [setLanguage_of_attempt_true env st c st1 hA]; exact h1
      | false =>
          by_cases hc : c = st1.defaultLang
          · rw [setLanguage_of_attempt_false_default env st c st1 hA hc]; exact h1
          · rw [setLanguage_of_attempt_false_other env st c st1 hA hc,
              setLanguageAttempt_languages env st1 st1.defaultLang]
            exact h1

theorem setLanguage_currentLang_cases (env : Env) (st : I18nState) (c : String) :
    (setLanguage env st c).1.currentLang = st.currentLang
    ∨ ∃ x, (∃ b, env.bundles x = some b)
        ∧ (setLanguage env st c).1.currentLang = some x := by
  have h1 := setLanguageAttempt_currentLang_cases env st c
  cases hA : setLanguageAttempt env st c with
  | mk st1 flag =>
      rw [hA] at h1
      cases flag with
      | true =>
          rw [setLanguage_of_attempt_true env st c st1 hA]
          rcases h1 with h1 | ⟨hb, h1⟩
          · exact Or.inl h1
          · exact Or.inr ⟨c, hb, h1⟩
      | false =>
          by_cases hc : c = st1.defaultLang
          · rw [setLanguage_of_attempt_false_default env st c st1 hA hc]
            rcases h1 with h1 | ⟨hb, h1⟩
            · exact Or.inl h1
            · exact Or.inr ⟨c, hb, h1⟩
          · rw [setLanguage_of_attempt_false_other env st c st1 hA hc]
            rcases setLanguageAttempt_currentLang_cases env st1 st1.defaultLang with
              h2 | ⟨hb2, h2⟩
            · rw [h2]
              rcases h1 with h1 | ⟨hb, h1⟩
              · exact Or.inl h1
              · exact Or.inr ⟨c, hb, h1⟩
            · exact Or.inr ⟨st1.defaultLang, hb2, h2⟩

theorem setLanguage_success_shape (env : Env) (st : I18nState) (c : String)
    (hok : (setLanguage env st c).2 = true) :
    ∃ (st0 : I18nState) (d : String) (b m : Json),
      st0.events = st.events ∧ st0.savedPref = st.savedPref
      ∧ st0.defaultLang = st.defaultLang ∧ st0.languages = st.languages
      ∧ (d = c ∨ d = st.defaultLang)
      ∧ env.bundles d = some b ∧ metaLookup b = Except.ok m
      ∧ setLanguage env st c =
          ({ st0 with
              translations := b
              currentLang := some d
              events := st0.events ++ [(some d, jsPropOr m "dir")]
              savedPref := saveLanguage env.storageAvailable st0.savedPref d }, true) := by
  cases hA : setLanguageAttempt env st c with
  | mk st1 flag =>
      cases flag with
      | true =>
          rcases setLanguageAttempt_success env st c (by rw [hA]) with ⟨b, m, hb, hm, hr⟩
          refine ⟨st, c, b, m, rfl, rfl, rfl, rfl, Or.inl rfl, hb, hm, ?_⟩
          rw [setLanguage_of_attempt_true env st c _ hr]
      | false =>
          by_cases hc : c = st1.defaultLang
          · rw [setLanguage_of_attempt_false_default env st c st1 hA hc] at hok
            exact absurd hok (by simp)
          · have hSL := setLanguage_of_attempt_false_other env st c st1 hA hc
            rw [hSL] at hok
            rcases setLanguageAttempt_success env st1 st1.defaultLang hok with
              ⟨b, m, hb, hm, hr⟩
            have hflag : (setLanguageAttempt env st c).2 = false := by rw [hA]
            rcases setLanguageAttempt_failed_fields env st c hflag with ⟨hev, hsp⟩
            rw [hA] at hev hsp
            have hdl := setLanguageAttempt_defaultLang env st c
            rw [hA] at hdl
            have hlg := setLanguageAttempt_languages env st c
            rw [hA] at hlg
            refine ⟨st1, st1.defaultLang, b, m, hev, hsp, hdl, hlg, Or.inr hdl, hb, hm, ?_⟩
            rw [hSL, hr]

/-! C4: dot-path lookup against the Reaches relation. On a key segment
that names no prototype member, the in-operator guard coincides with
own-property membership and the traversal stays inside the JSON data. -/

theorem tCanDescend_data_of_clean (j : Json) (k : String)
    (h : protoPropName k = false) :
    tCanDescend (JsValue.data j) k = jsOwnKey j k := by
  rcases Bool.or_eq_false_iff.mp h with ⟨ho, ha⟩
  cases j with
  | obj kvs =>
      show (jsOwnKey (Json.obj kvs) k || objectProtoKeys.contains k)
        = jsOwnKey (Json.obj kvs) k
      rw [ho, Bool.or_false]
  | arr xs =>
      show (jsOwnKey (Json.arr xs) k || arrayProtoKeys.contains k
          || objectProtoKeys.contains k) = jsOwnKey (Json.arr xs) k
      rw [ho, ha, Bool.or_false, Bool.or_false]
  | null => rfl
  | bool x => rfl
  | num x => rfl
  | str x => rfl

theorem jsGetIn_data_of_own (j : Json) (k : String) (hk : jsOwnKey j k = true) :
    jsGetIn (JsValue.data j) k = JsValue.data (jsOwnIndex j k) := by
  cases j with
  | obj kvs => simp [jsGetIn, hk]
  | arr xs => simp [jsGetIn, hk]
  | null => exact absurd hk (by simp [jsOwnKey])
  | bool x => exact absurd hk (by simp [jsOwnKey])
  | num x => exact absurd hk (by simp [jsOwnKey])
  | str x => exact absurd hk (by simp [jsOwnKey])

theorem tGo_reaches_or_key (ks : List String) (v : Json) (key : String)
    (hclean : ∀ k ∈ ks, protoPropName k = false) :
    (∃ u, Reaches v ks u ∧ tGo (JsValue.data v) ks key = JsValue.data u)
    ∨ ((∀ u, ¬ Reaches v ks u)
        ∧ tGo (JsValue.data v) ks key = JsValue.data (Json.str key)) := by
  induction ks generalizing v with
  | nil => exact Or.inl ⟨v, Reaches.nil v, rfl⟩
  | cons k ks ih =>
      have hk : protoPropName k = false := hclean k (by simp)
      have hks : ∀ k' ∈ ks, protoPropName k' = false :=
        fun k' hk' => hclean k' (by simp [hk'])
      by_cases h : jsOwnKey v k = true
      · have hstep : tGo (JsValue.data v) (k :: ks) key =
            tGo (JsValue.data (jsOwnIndex v k)) ks key := by
          simp [tGo, tCanDescend_data_of_clean v k hk, h, jsGetIn_data_of_own v k h]
        rcases ih (jsOwnIndex v k) hks with ⟨u, hr, he⟩ | ⟨hn, he⟩
        · exact Or.inl ⟨u, Reaches.cons h rfl hr, by rw [hstep]; exact he⟩
        · refine Or.inr ⟨?_, by rw [hstep]; exact he⟩
          intro u hu
          cases hu with
          | cons h' hw hr => exact hn u (hw ▸ hr)
      · have hstep : tGo (JsValue.data v) (k :: ks) key = JsValue.data (Json.str key) := by
          simp [tGo, tCanDescend_data_of_clean v k hk, h]
        refine Or.inr ⟨?_, hstep⟩
        intro u hu
        cases hu with
        | cons h' _ _ => exact h h'

/-- C4 counterexample: the claim quantified over every dot-separated key
is false on the code. On the spec scenario bundle, toString is not a
member of the nested mapping, yet t returns the inherited built-in
Object.prototype.toString found by the in operator through the prototype
chain, not the key string. -/
theorem t_prototype_leak_cex :
    jsOwnKey sampleLookupState.translations "toString" = false
    ∧ (∀ u, ¬ Reaches sampleLookupState.translations (jsSplit "toString" '.') u)
    ∧ sampleLookupState.t "toString" = JsValue.hostFun "Object.prototype.toString"
    ∧ sampleLookupState.t "toString" ≠ JsValue.data (Json.str "toString") := by
  refine ⟨rfl, ?_, rfl, ?_⟩
  · intro u hu
    have hl : jsSplit "toString" '.' = ["toString"] := rfl
    rw [hl] at hu
    cases hu with
    | cons h' _ _ => exact absurd h' (by decide)
  · intro h
    exact JsValue.noConfusion
      ((rfl : sampleLookupState.t "toString" =
        JsValue.hostFun "Object.prototype.toString").symm.trans h)

/-- C4 (amended): for every active bundle and every dot-separated key none
of whose segments names a built-in prototype member (a property of
Object.prototype or Array.prototype, such as toString or constructor), t
(and its alias get) returns the value reached by traversing the nested
mapping along the dot-separated path, and when some path segment is
missing it returns the key string itself, a plain string rather than
null, and in every case a value rather than an exception. For a missing
segment that does name an inherited prototype member, the in operator
finds the inherited property and t returns that built-in instead of the
key string. -/
theorem t_path_traversal_or_key (st : I18nState) (key : String)
    (hclean : ∀ k ∈ jsSplit key '.', protoPropName k = false) :
    st.get key = st.t key ∧
    ((∃ u, Reaches st.translations (jsSplit key '.') u ∧ st.t key = JsValue.data u)
      ∨ ((∀ u, ¬ Reaches st.translations (jsSplit key '.') u)
          ∧ st.t key = JsValue.data (Json.str key)
          ∧ st.t key ≠ JsValue.data Json.null)) := by
  refine ⟨rfl, ?_⟩
  rcases tGo_reaches_or_key (jsSplit key '.') st.translations key hclean with
    ⟨u, hr, he⟩ | ⟨hn, he⟩
  · exact Or.inl ⟨u, hr, he⟩
  · refine Or.inr ⟨hn, he, ?_⟩
    show tGo (JsValue.data st.translations) (jsSplit key '.') key ≠ JsValue.data Json.null
    rw [he]
    intro hcon
    injection hcon with h2
    exact Json.noConfusion h2

/-- C4 witness: the theorem instantiated at the spec scenario bundle and
the key a.z, whose segments name no prototype member and whose second
segment is missing. -/
theorem t_path_traversal_or_key_witness :
    (∀ k ∈ jsSplit "a.z" '.', protoPropName k = false)
    ∧ (sampleLookupState.get "a.z" = sampleLookupState.t "a.z" ∧
        ((∃ u, Reaches sampleLookupState.translations (jsSplit "a.z" '.') u
            ∧ sampleLookupState.t "a.z" = JsValue.data u)
          ∨ ((∀ u, ¬ Reaches sampleLookupState.translations (jsSplit "a.z" '.') u)
              ∧ sampleLookupState.t "a.z" = JsValue.data (Json.str "a.z")
              ∧ sampleLookupState.t "a.z" ≠ JsValue.data Json.null))) :=
  ⟨by decide, t_path_traversal_or_key sampleLookupState "a.z" (by decide)⟩

/-- C2: for every code c other than the default whose bundle load fails,
setLanguage(c) is exactly one retry with the default language, and when
the default bundle loads and applies successfully, the resolved call
reports success with getCurrentLang() equal to the default language. -/
theorem setLanguage_fallback_once (env : Env) (st : I18nState) (c : String)
    (hfail : env.bundles c = none)
    (hne : c ≠ st.defaultLang)
    (hok : (setLanguageAttempt env st st.defaultLang).2 = true) :
    setLanguage env st c = setLanguageAttempt env st st.defaultLang
    ∧ (setLanguage env st c).2 = true
    ∧ getCurrentLang (setLanguage env st c).1 = some st.defaultLang := by
  have h1 : setLanguageAttempt env st c = (st, false) := by
    simp [setLanguageAttempt, hfail]
  have h2 := setLanguage_of_attempt_false_other env st c st h1 hne
  rcases setLanguageAttempt_success env st st.defaultLang hok with ⟨b, m, hb, hm, hr⟩
  refine ⟨h2, ?_, ?_⟩
  · rw [h2, hr]
  · rw [getCurrentLang, h2, hr]

/-- C2 witness: the spec scenario with a stale French preference, the
French bundle unreachable and the Arabic default loading. -/
theorem setLanguage_fallback_once_witness :
    demoEnv.bundles "fr" = none
    ∧ "fr" ≠ demoFrPrefSt.defaultLang
    ∧ (setLanguageAttempt demoEnv demoFrPrefSt demoFrPrefSt.defaultLang).2 = true
    ∧ getCurrentLang (setLanguage demoEnv demoFrPrefSt "fr").1 = some "ar" :=
  ⟨rfl, by decide, rfl,
    (setLanguage_fallback_once demoEnv demoFrPrefSt "fr" rfl (by decide) rfl).2.2⟩

/-- C3 counterexample: the claim that a failing setLanguage(defaultLang)
leaves currentLang and the active bundle unchanged is false when the
default bundle arrives as valid JSON without a meta entry: the call
returns failure, yet currentLang has moved from en to ar and the active
translations have been replaced by the meta-less bundle. -/
theorem setLanguage_default_failure_mutates_cex :
    (setLanguage noMetaEnv demoEnSt "ar").2 = false
    ∧ demoEnSt.defaultLang = "ar"
    ∧ demoEnSt.currentLang = some "en"
    ∧ (setLanguage noMetaEnv demoEnSt "ar").1.currentLang = some "ar"
    ∧ (setLanguage noMetaEnv demoEnSt "ar").1.translations = noMetaBundle
    ∧ jsOwnKey demoEnSt.translations "meta" = true
    ∧ jsOwnKey (setLanguage noMetaEnv demoEnSt "ar").1.translations "meta" = false :=
  ⟨rfl, rfl, rfl, rfl, rfl, rfl, rfl⟩

/-- C3 (amended): if setLanguage(defaultLang) fails because the bundle
load itself fails (the fetch rejects, the response is not ok, or the body
is not valid JSON), the call returns failure and leaves the whole state,
in particular currentLang and the active translations, unchanged. If the
bundle loads as JSON but applying it throws (no meta entry), the call
still returns failure but currentLang and translations have already been
replaced. -/
theorem setLanguage_default_load_failure_preserves (env : Env) (st : I18nState)
    (hfail : env.bundles st.defaultLang = none) :
    setLanguage env st st.defaultLang = (st, false) := by
  have h1 : setLanguageAttempt env st st.defaultLang = (st, false) := by
    simp [setLanguageAttempt, hfail]
  exact setLanguage_of_attempt_false_default env st st.defaultLang st h1 rfl

/-- C3 witness: a total outage while English is active leaves the ready
state untouched. -/
theorem setLanguage_default_load_failure_preserves_witness :
    outageEnv.bundles demoEnSt.defaultLang = none
    ∧ setLanguage outageEnv demoEnSt demoEnSt.defaultLang = (demoEnSt, false) :=
  ⟨rfl, setLanguage_default_load_failure_preserves outageEnv demoEnSt rfl⟩

/-- C5: on any manifest fetch or parse failure, loadLanguages, called as
init calls it on the constructor state, never fails and leaves the
registry as exactly the two fallback descriptors, ar with direction rtl
and en with direction ltr, with defaultLang equal to ar. -/
theorem loadLanguages_failure_fallback (env : Env) (pref : Option String)
    (hfail : env.manifest = none) :
    (loadLanguages env (initialState pref)).languages =
      [ { code := "ar", name := "العربية", flag := "https://flagcdn.com/w80/eg.png",
          dir := "rtl" },
        { code := "en", name := "English", flag := "https://flagcdn.com/w80/gb.png",
          dir := "ltr" } ]
    ∧ (loadLanguages env (initialState pref)).defaultLang = "ar" := by
  rw [loadLanguages, hfail]
  exact ⟨rfl, rfl⟩

/-- C5 witness: the fallback registry materializes during a total
outage. -/
theorem loadLanguages_failure_fallback_witness :
    outageEnv.manifest = none
    ∧ (loadLanguages outageEnv (initialState none)).languages =
        [ { code := "ar", name := "العربية", flag := "https://flagcdn.com/w80/eg.png",
            dir := "rtl" },
          { code := "en", name := "English", flag := "https://flagcdn.com/w80/gb.png",
            dir := "ltr" } ]
    ∧ (loadLanguages outageEnv (initialState none)).defaultLang = "ar" :=
  ⟨rfl, (loadLanguages_failure_fallback outageEnv none rfl).1,
    (loadLanguages_failure_fallback outageEnv none rfl).2⟩

/-- C9: the preference store operations never throw. The raw storage calls
do throw when storage is unavailable, but getSavedLanguage then returns
null and saveLanguage returns with the stored value unchanged; with
storage available they read the stored value and write the new code. -/
theorem preference_store_total (pref : Option String) (code : String) :
    getSavedLanguage false pref = none
    ∧ saveLanguage false pref code = pref
    ∧ (∃ e, rawGetItem false pref = Except.error e)
    ∧ (∃ e, rawSetItem false code = Except.error e)
    ∧ getSavedLanguage true pref = pref
    ∧ saveLanguage true pref code = some code :=
  ⟨rfl, rfl, ⟨_, rfl⟩, ⟨_, rfl⟩, rfl, rfl⟩

/-- C9 witness: the store operations at a concrete stored value and
code. -/
theorem preference_store_total_witness :
    getSavedLanguage false (some "fr") = none
    ∧ saveLanguage false (some "fr") "en" = some "fr"
    ∧ (∃ e, rawGetItem false (some "fr") = Except.error e)
    ∧ (∃ e, rawSetItem false "en" = Except.error e)
    ∧ getSavedLanguage true (some "fr") = some "fr"
    ∧ saveLanguage true (some "fr") "en" = some "en" :=
  preference_store_total (some "fr") "en"

theorem getBrowserLanguage_none (env : Env) (st : I18nState)
    (h : jsOrOpt env.navLanguage env.navUserLanguage = none) :
    getBrowserLanguage env st = none := by
  unfold getBrowserLanguage
  rw [h]

theorem getBrowserLanguage_some (env : Env) (st : I18nState) (b : String)
    (h : jsOrOpt env.navLanguage env.navUserLanguage = some b) :
    getBrowserLanguage env st =
      (if b == "" then none
       else if st.languages.any (fun l => l.code == (jsSplit b '-').headD "") then
         some ((jsSplit b '-').headD "") else none) := by
  unfold getBrowserLanguage
  rw [h]

/-- C7: browser detection returns the primary subtag of the reported
browser language exactly when that subtag is the code of some registry
descriptor, and null otherwise, in particular when the browser reports no
language. -/
theorem getBrowserLanguage_primary_subtag (env : Env) (st : I18nState) :
    (jsOrOpt env.navLanguage env.navUserLanguage = none → getBrowserLanguage env st = none)
    ∧ ∀ c, getBrowserLanguage env st = some c ↔
        ∃ b, jsOrOpt env.navLanguage env.navUserLanguage = some b ∧ b ≠ ""
          ∧ c = (jsSplit b '-').headD ""
          ∧ st.languages.any (fun l => l.code == c) = true := by
  constructor
  · exact getBrowserLanguage_none env st
  · intro c
    cases hj : jsOrOpt env.navLanguage env.navUserLanguage with
    | none =>
        rw [getBrowserLanguage_none env st hj]
        simp
    | some b0 =>
        rw [getBrowserLanguage_some env st b0 hj]
        by_cases hb : b0 = ""
        · subst hb
          simp
        · rw [if_neg (by simpa using hb)]
          by_cases hany :
              st.languages.any (fun l => l.code == (jsSplit b0 '-').headD "") = true
          · rw [if_pos hany]
            constructor
            · intro h
              have hc : (jsSplit b0 '-').headD "" = c := by injection h
              refine ⟨b0, rfl, hb, hc.symm, ?_⟩
              rw [← hc]
              exact hany
            · rintro ⟨b, hbeq, hne, hc, ha⟩
              have hb0 : b0 = b := by injection hbeq
              subst hb0
              rw [hc]
          · rw [if_neg hany]
            constructor
            · intro h
              exact absurd h (by simp)
            · rintro ⟨b, hbeq, hne, hc, ha⟩
              have hb0 : b0 = b := by injection hbeq
              subst hb0
              rw [hc] at ha
              exact absurd ha hany

/-- C7 witness: with the browser reporting en-US on the fallback registry,
detection yields en; the other direction of the characterization applied
to that world. -/
theorem getBrowserLanguage_primary_subtag_witness :
    getBrowserLanguage
        { demoEnv with navLanguage := some "en-US" } demoReadySt = some "en"
    ∧ (jsOrOpt (some "en-US") none = none →
        getBrowserLanguage { demoEnv with navLanguage := some "en-US" } demoReadySt = none) := by
  have h := getBrowserLanguage_primary_subtag
    { demoEnv with navLanguage := some "en-US" } demoReadySt
  refine ⟨?_, h.1⟩
  exact (h.2 "en").mpr ⟨"en-US", rfl, by decide, by decide, by decide⟩

/-- C8: every successful completion of setLanguage appends exactly one
languageChanged event, whose payload is the newly active language code
paired with the newly active bundle's meta.dir. -/
theorem setLanguage_success_dispatches_once (env : Env) (st : I18nState) (c : String)
    (hok : (setLanguage env st c).2 = true) :
    (setLanguage env st c).1.events =
      st.events ++ [((setLanguage env st c).1.currentLang,
        langDir (setLanguage env st c).1.translations)] := by
  rcases setLanguage_success_shape env st c hok with
    ⟨st0, d, b, m, hev, hsp, hdl, hlg, hd, hb, hm, hr⟩
  rw [hr]
  show st0.events ++ [(some d, jsPropOr m "dir")] = st.events ++ [(some d, langDir b)]
  rw [hev, langDir_of_metaLookup b m hm]

/-- C8 witness: switching the ready state to English appends the single
event with payload en and ltr. -/
theorem setLanguage_success_dispatches_once_witness :
    (setLanguage demoEnv demoReadySt "en").2 = true
    ∧ (setLanguage demoEnv demoReadySt "en").1.events =
        demoReadySt.events ++ [((setLanguage demoEnv demoReadySt "en").1.currentLang,
          langDir (setLanguage demoEnv demoReadySt "en").1.translations)]
    ∧ (setLanguage demoEnv demoReadySt "en").1.events =
        [(some "en", some (Json.str "ltr"))] :=
  ⟨rfl, setLanguage_success_dispatches_once demoEnv demoReadySt "en" rfl, rfl⟩

/-- C10: after every successful completion of setLanguage with storage
available, the persisted preference equals the language actually loaded,
which is the new currentLang; in particular a fallback overwrites the
requested code with the default one. -/
theorem setLanguage_success_saves_loaded (env : Env) (st : I18nState) (c : String)
    (hok : (setLanguage env st c).2 = true)
    (hav : env.storageAvailable = true) :
    (setLanguage env st c).1.savedPref = getCurrentLang (setLanguage env st c).1 := by
  rcases setLanguage_success_shape env st c hok with
    ⟨st0, d, b, m, hev, hsp, hdl, hlg, hd, hb, hm, hr⟩
  rw [hr]
  show saveLanguage env.storageAvailable st0.savedPref d = some d
  rw [hav]
  rfl

/-- C10 witness: the stale French preference scenario: the call falls back
to Arabic and the stored preference becomes ar, the loaded language. -/
theorem setLanguage_success_saves_loaded_witness :
    (setLanguage demoEnv demoFrPrefSt "fr").2 = true
    ∧ demoEnv.storageAvailable = true
    ∧ demoFrPrefSt.savedPref = some "fr"
    ∧ (setLanguage demoEnv demoFrPrefSt "fr").1.savedPref =
        getCurrentLang (setLanguage demoEnv demoFrPrefSt "fr").1
    ∧ (setLanguage demoEnv demoFrPrefSt "fr").1.savedPref = some "ar" :=
  ⟨rfl, rfl, rfl, setLanguage_success_saves_loaded demoEnv demoFrPrefSt "fr" rfl rfl, rfl⟩

/-- C1 counterexample: with French in the registry (direction ltr), the
French bundle unreachable and the Arabic default loading with meta.dir
rtl, setLanguage of fr succeeds, yet getCurrentLang() is not fr and
isRTL() is true while the direction recorded in the registry descriptor
of fr is ltr. -/
theorem setLanguage_success_registry_dir_cex :
    mixedRegistrySt.languages.any (fun l => l.code == "fr") = true
    ∧ (setLanguage demoEnv mixedRegistrySt "fr").2 = true
    ∧ getCurrentLang (setLanguage demoEnv mixedRegistrySt "fr").1 ≠ some "fr"
    ∧ isRTL (setLanguage demoEnv mixedRegistrySt "fr").1 = Except.ok true
    ∧ mixedRegistrySt.languages.find? (fun l => l.code == "fr") = some frDescriptor
    ∧ frDescriptor.dir = "ltr" :=
  ⟨rfl, rfl, by decide, rfl, rfl, rfl⟩

/-- C1 (amended): for every code c, if setLanguage(c) succeeds by loading
the bundle of c itself (no fallback), then getCurrentLang() is c; and when
that bundle's meta.dir agrees with the direction in the registry
descriptor of c, isRTL() is true exactly when that direction is rtl. -/
theorem setLanguage_direct_success_lang_dir (env : Env) (st : I18nState) (c : String)
    (d : LanguageDescriptor)
    (hok : (setLanguageAttempt env st c).2 = true)
    (hdesc : st.languages.find? (fun l => l.code == c) = some d)
    (hagree : langDir (setLanguageAttempt env st c).1.translations = some (Json.str d.dir)) :
    setLanguage env st c = setLanguageAttempt env st c
    ∧ getCurrentLang (setLanguage env st c).1 = some c
    ∧ isRTL (setLanguage env st c).1 = Except.ok (d.dir == "rtl") := by
  rcases setLanguageAttempt_success env st c hok with ⟨b, m, hb, hm, hr⟩
  have hSL := setLanguage_of_attempt_true env st c _ hr
  refine ⟨by rw [hSL, hr], by rw [hSL]; rfl, ?_⟩
  rw [hr] at hagree
  have h2 : langDir b = some (Json.str d.dir) := hagree
  rw [langDir_of_metaLookup b m hm] at h2
  rcases metaLookup_ok_elim b m hm with ⟨hmb, hmn⟩
  rw [hSL]
  exact isRTL_of_meta_dir _ m d.dir hmb h2

/-- C1 witness: loading English directly on the fallback registry, whose
en descriptor and bundle both say ltr. -/
theorem setLanguage_direct_success_lang_dir_witness :
    (setLanguageAttempt demoEnv demoReadySt "en").2 = true
    ∧ demoReadySt.languages.find? (fun l => l.code == "en") =
        some { code := "en", name := "English", flag := "https://flagcdn.com/w80/gb.png",
               dir := "ltr" }
    ∧ langDir (setLanguageAttempt demoEnv demoReadySt "en").1.translations =
        some (Json.str "ltr")
    ∧ getCurrentLang (setLanguage demoEnv demoReadySt "en").1 = some "en"
    ∧ isRTL (setLanguage demoEnv demoReadySt "en").1 = Except.ok false :=
  ⟨rfl, rfl, rfl,
    (setLanguage_direct_success_lang_dir demoEnv demoReadySt "en"
      { code := "en", name := "English", flag := "https://flagcdn.com/w80/gb.png",
        dir := "ltr" } rfl rfl rfl).2.1,
    (setLanguage_direct_success_lang_dir demoEnv demoReadySt "en"
      { code := "en", name := "English", flag := "https://flagcdn.com/w80/gb.png",
        dir := "ltr" } rfl rfl rfl).2.2⟩

/-- C6 counterexample: initialization that succeeds can already violate
the claimed invariant. With the manifest unreachable (registry is the
ar/en fallback), a stale saved preference fr and a reachable French
bundle, init completes with currentLang fr, a code not present in the
registry. -/
theorem currentLang_outside_registry_cex :
    getCurrentLang (init strayBundleEnv (initialState (some "fr"))) = some "fr"
    ∧ (init strayBundleEnv (initialState (some "fr"))).languages.any
        (fun l => l.code == "fr") = false :=
  ⟨rfl, rfl⟩

/-- C6 (amended): the code never checks the requested code against the
registry, so the invariant holds provided every code with a loadable
bundle is listed in the registry: under that closure assumption, if the
previous currentLang is in the registry then after any setLanguage the new
currentLang is still a code present in the (unchanged) registry. -/
theorem setLanguage_preserves_registry_membership (env : Env) (st : I18nState) (c : String)
    (hclosed : ∀ x b, env.bundles x = some b →
      st.languages.any (fun l => l.code == x) = true)
    (hprev : ∀ l, st.currentLang = some l →
      st.languages.any (fun l' => l'.code == l) = true) :
    ∀ l, getCurrentLang (setLanguage env st c).1 = some l →
      (setLanguage env st c).1.languages.any (fun l' => l'.code == l) = true := by
  intro l hl
  rw [setLanguage_languages]
  rcases setLanguage_currentLang_cases env st c with h | ⟨x, ⟨b, hb⟩, h⟩
  · refine hprev l ?_
    rw [← h]
    exact hl
  · have hxl : some x = some l := by
      rw [← h]
      exact hl
    have hx : x = l := by injection hxl
    subst hx
    exact hclosed x b hb

/-- C6 witness: switching the ready state to English, in a world whose
only loadable bundles are the registry codes ar and en. -/
theorem setLanguage_preserves_registry_membership_witness :
    getCurrentLang (setLanguage demoEnv demoReadySt "en").1 = some "en"
    ∧ (setLanguage demoEnv demoReadySt "en").1.languages.any
        (fun l => l.code == "en") = true := by
  refine ⟨rfl, ?_⟩
  refine setLanguage_preserves_registry_membership demoEnv demoReadySt "en" ?_ ?_ "en" rfl
  · intro x b h
    by_cases hx : x = "en"
    · subst hx
      decide
    · by_cases hx2 : x = "ar"
      · subst hx2
        decide
      · have hnone : demoEnv.bundles x = none := by
          simp [demoEnv, hx, hx2]
        rw [hnone] at h
        exact Option.noConfusion h
  · intro l hl
    have h2 : some "ar" = some l := hl
    have h3 : "ar" = l := by injection h2
    subst h3
    decide

end CiviStories
